import Mathlib

/-!
Verification of the reward–price reconciliation and export pipeline of
`polkadot-rewards` (`src/cli.rs`), shallowly embedded in Lean 4.

Conventions of the embedding:
* Rust `u128` amounts become `Nat` (with explicit `< 2 ^ 128` bounds where a
  claim mentions the width); `f64` prices and display amounts become exact
  rationals `ℚ` — the spec (§8) accepts float precision loss, so floats are
  modelled by their ideal real values.
* Fallible Rust code (`Result`, the `?` operator) becomes `Except Err`.
* The types declared in the repository's `primitives`/`api` modules (not part
  of the given sources) are modelled from the spec where noted.
-/

/-- Calendar date carried by a reward and by the `from`/`to` bounds.
Modelled from the spec: chrono's `NaiveDateTime`, restricted to the calendar
components that the claims exercise (`%Y`, `%m`, `%d`). -/
structure Date where
  year : Nat
  month : Nat
  day : Nat
deriving DecidableEq

/-- The `Network` enum of `cli.rs`. -/
inductive Network where
  | Polkadot
  | Kusama
deriving DecidableEq

/-- `Network::id` of `cli.rs` (note the misspelling of "polkdadot" is the
source's own). -/
def Network.id : Network → String
  | .Polkadot => "polkdadot"
  | .Kusama => "kusama"

/-- A staking-reward event. Modelled from the spec: `RewardEvent` is declared
in the missing `primitives` module; field names `block_num`, `day`, `amount`
are those used by `cli.rs`, with `amount` an unsigned 128-bit integer in the
smallest network unit. -/
structure Reward where
  block_num : Nat
  day : Date
  amount : Nat
deriving DecidableEq

/-- Modelled from the spec: the `market_data` payload of a price snapshot —
a mapping from currency code (string, case-sensitive) to price, represented
as an association list with prices as exact rationals in place of `f64`. -/
structure MarketData where
  current_price : List (String × ℚ)
deriving DecidableEq

/-- Modelled from the spec: `PriceSnapshot`, declared in the missing
`primitives` module; `cli.rs` accesses `price.market_data.current_price`. -/
structure Price where
  market_data : MarketData
deriving DecidableEq

/-- The `CsvRecord` row type; field names and order are those of the struct
literal built in `cli.rs` (`block_num`, `block_time`, `amount`, `price`). -/
structure CsvRecord where
  block_num : Nat
  block_time : String
  amount : ℚ
  price : ℚ
deriving DecidableEq

/-- Error values the pipeline can surface, mirroring the `anyhow` errors of
`cli.rs` (context wrapping elided): the currency-lookup failure built at the
`ok_or_else` call, a failed write by the underlying sink, and a failed
`File::create`. -/
inductive Err where
  | currencyNotSupported (requested : String) (available : List String)
  | writeFailed (k : Nat)
  | sinkCreation (path : String)
deriving DecidableEq

instance {ε α : Type} [DecidableEq ε] [DecidableEq α] : DecidableEq (Except ε α) := by
  intro a b
  cases a <;> cases b
  case error.error x y =>
    exact if h : x = y then .isTrue (by rw [h]) else .isFalse (fun hh => h (by cases hh; rfl))
  case ok.ok x y =>
    exact if h : x = y then .isTrue (by rw [h]) else .isFalse (fun hh => h (by cases hh; rfl))
  case error.ok x y => exact .isFalse (fun hh => by cases hh)
  case ok.error x y => exact .isFalse (fun hh => by cases hh)

/-- One decimal digit as a character. -/
def digChar : Nat → Char
  | 0 => '0'
  | 1 => '1'
  | 2 => '2'
  | 3 => '3'
  | 4 => '4'
  | 5 => '5'
  | 6 => '6'
  | 7 => '7'
  | 8 => '8'
  | 9 => '9'
  | _ => '*'

/-- Decimal digits accumulator: peels digits least-significant first into the
accumulator; the fuel bounds the digit count so recursion is structural. -/
def natCharsAux : Nat → Nat → List Char → List Char
  | 0, _, acc => acc
  | fuel + 1, n, acc =>
    if n < 10 then digChar n :: acc
    else natCharsAux fuel (n / 10) (digChar (n % 10) :: acc)

/-- Decimal digits of a natural number, most significant first. -/
def natChars (n : Nat) : List Char :=
  natCharsAux (n + 1) n []

/-- Zero-padded decimal rendering to a minimum width, as chrono's numeric
date specifiers produce. -/
def zeroPad (w n : Nat) : String :=
  String.mk (List.replicate (w - (natChars n).length) '0' ++ natChars n)

/-- Modelled from the spec: chrono's strftime-style formatter, restricted to
the `%Y`, `%m`, `%d` directives and literal characters — the only directives
appearing in the formats the claims exercise (`OUTPUT_DATE`). -/
def formatChrono : List Char → Date → String
  | [], _ => ""
  | '%' :: 'Y' :: rest, d => zeroPad 4 d.year ++ formatChrono rest d
  | '%' :: 'm' :: rest, d => zeroPad 2 d.month ++ formatChrono rest d
  | '%' :: 'd' :: rest, d => zeroPad 2 d.day ++ formatChrono rest d
  | c :: rest, d => String.singleton c ++ formatChrono rest d

/-- Date formatting on a format string, as `day.format(fmt)` in `cli.rs`. -/
def formatDate (fmt : String) (d : Date) : String :=
  formatChrono fmt.toList d

/-- The `OUTPUT_DATE` constant of `cli.rs`. -/
def OUTPUT_DATE : String := "%Y-%m-%d"

/-- `amount_to_network` of `cli.rs`: divides the raw amount by the literal
network divisor; the `f64` division is modelled as exact rational division. -/
def amount_to_network (network : Network) (amount : Nat) : ℚ :=
  match network with
  | .Polkadot => (amount : ℚ) / 10000000000
  | .Kusama => (amount : ℚ) / 1000000000000

/-- Spec-side definition (from the spec's words, for comparison): the
network's fixed base-unit divisor, `10^10` for Polkadot and `10^12` for
Kusama. -/
def specDivisor : Network → ℚ
  | .Polkadot => 10 ^ 10
  | .Kusama => 10 ^ 12

/-- Exact-key association-list lookup, as `BTreeMap::get` on the snapshot's
currency mapping. -/
def lookupPrice : List (String × ℚ) → String → Option ℚ
  | [], _ => none
  | (k, v) :: rest, c => if k = c then some v else lookupPrice rest c

/-- The key set of the currency mapping, as `keys()` in the error message of
`cli.rs`. -/
def priceKeys (m : List (String × ℚ)) : List String :=
  m.map Prod.fst

/-- The currency resolution of `cli.rs` line 137:
`price.market_data.current_price.get(&app.currency).ok_or_else(...)`. -/
def resolvePrice (m : List (String × ℚ)) (c : String) : Except Err ℚ :=
  match lookupPrice m c with
  | some v => .ok v
  | none => .error (.currencyNotSupported c (priceKeys m))

/-- Rendering of an error to its message text, as `anyhow!` formats it in
`cli.rs` (the `{:#?}` rendering of the key set is abstracted to `toString`). -/
def Err.message : Err → String
  | .currencyNotSupported c ks =>
      "Specified fiat currency '" ++ c ++ "' not supported: " ++ toString ks
  | .writeFailed k => "failed to write row " ++ toString k
  | .sinkCreation p => "Failed to create output: " ++ p

/-- The configuration the row loop of `app()` reads. -/
structure Ctx where
  network : Network
  currency : String
  date_format : String
deriving DecidableEq

/-- The `CsvRecord` struct literal built inside the loop of `app()`
(lines 133–144): date formatting, unit conversion and currency resolution,
failing exactly when the currency lookup fails. -/
def buildRecord (ctx : Ctx) (reward : Reward) (price : Price) : Except Err CsvRecord :=
  match resolvePrice price.market_data.current_price ctx.currency with
  | .error e => .error e
  | .ok v =>
      .ok { block_num := reward.block_num
            block_time := formatDate ctx.date_format reward.day
            amount := amount_to_network ctx.network reward.amount
            price := v }

/-- The record the loop builds for a pair, written with a total price lookup
(`getD`) — coincides with `buildRecord` whenever the lookup succeeds. -/
def recordOf (ctx : Ctx) (reward : Reward) (price : Price) : CsvRecord :=
  { block_num := reward.block_num
    block_time := formatDate ctx.date_format reward.day
    amount := amount_to_network ctx.network reward.amount
    price := (lookupPrice price.market_data.current_price ctx.currency).getD 0 }

/-- Modelled from the spec: the underlying byte sink (`File` or `Stdout`) may
fail on any given write (disk full, broken pipe); a failure oracle records
whether the k-th serialize call on a writer fails. -/
structure IoDevice where
  failAt : Nat → Bool

/-- Modelled from the spec: the state of a `csv::Writer` — the configured
delimiter, whether the header row has been emitted (the csv writer emits it
lazily on the first `serialize` call), the data records written so far, and
the number of serialize calls attempted. -/
structure CsvWriter where
  delim : Char
  headerWritten : Bool
  rows : List CsvRecord
  calls : Nat
deriving DecidableEq

/-- A csv writer as `WriterBuilder::new().delimiter(d).from_writer(...)`
produces it: nothing written yet. -/
def freshWriter (d : Char) : CsvWriter :=
  { delim := d, headerWritten := false, rows := [], calls := 0 }

/-- Modelled from the spec: one `csv::Writer::serialize` call — fails when
the underlying device fails this write; otherwise emits the header first if
not yet emitted and then appends the record as one row. -/
def csvSerialize (dev : IoDevice) (w : CsvWriter) (rec : CsvRecord) : Except Err CsvWriter :=
  if dev.failAt w.calls then .error (.writeFailed w.calls)
  else .ok { w with headerWritten := true, rows := w.rows ++ [rec], calls := w.calls + 1 }

/-- The header row the csv writer derives from `CsvRecord`'s field names,
delimiter-joined and newline-terminated. -/
def headerLine (d : Char) : String :=
  String.intercalate (String.singleton d) [("block_num"), ("block_time"), ("amount"), ("price")] ++ "\n"

/-- One serialized data row: the four fields of the record, delimiter-joined
with no trailing delimiter, newline-terminated (numeric rendering is
abstracted to `toString`). -/
def renderLine (d : Char) (rec : CsvRecord) : String :=
  String.intercalate (String.singleton d)
    [toString rec.block_num, rec.block_time, toString rec.amount, toString rec.price] ++ "\n"

/-- The full text a writer state has produced: the header (if emitted)
followed by the data rows, in order. -/
def renderedLines (w : CsvWriter) : List String :=
  (if w.headerWritten then [headerLine w.delim] else []) ++ w.rows.map (renderLine w.delim)

/-- The `Output` enum of `cli.rs`: a csv writer over a file or over stdout. -/
inductive Output where
  | FileOut (w : CsvWriter)
  | StdOut (w : CsvWriter)
deriving DecidableEq

/-- The csv writer carried by either variant. -/
def Output.writer : Output → CsvWriter
  | .FileOut w => w
  | .StdOut w => w

/-- Replace the carried writer, keeping the variant. -/
def Output.withWriter : Output → CsvWriter → Output
  | .FileOut _, w => .FileOut w
  | .StdOut _, w => .StdOut w

/-- `Output::serialize` of `cli.rs`: both variants perform the same
`serialize` on their writer. -/
def Output.serialize (dev : IoDevice) : Output → CsvRecord → Except Err Output
  | .FileOut w, rec => (csvSerialize dev w rec).map .FileOut
  | .StdOut w, rec => (csvSerialize dev w rec).map .StdOut

/-- A just-created output in the variant `Output::new` selects for the given
`stdout` flag, before anything is written. -/
def Output.fresh (stdoutFlag : Bool) : Output :=
  if stdoutFlag then .StdOut (freshWriter ';') else .FileOut (freshWriter ';')

/-- Serialize a list of records in order, stopping at the first error. -/
def serializeAll (dev : IoDevice) : Output → List CsvRecord → Except Err Output
  | out, [] => .ok out
  | out, r :: rest =>
    match Output.serialize dev out r with
    | .error e => .error e
    | .ok out' => serializeAll dev out' rest

/-- Modelled from the spec: the file system as `File::create` sees it —
whether a path's parent directory exists, whether the path is
write-protected, and the contents of existing files. -/
structure FileSystem where
  parentExists : String → Bool
  writeProtected : String → Bool
  files : String → Option String

/-- Overwrite (or create) one file's contents. -/
def setFile (fs : FileSystem) (path : String) (content : String) : FileSystem :=
  { fs with files := fun p => if p = path then some content else fs.files p }

/-- Modelled from the spec: `File::create` — fails iff the parent directory
is missing or the path is write-protected; on success the file exists with
empty contents (created or truncated). -/
def fileCreate (fs : FileSystem) (path : String) : Except Err FileSystem :=
  if fs.parentExists path && !fs.writeProtected path then .ok (setFile fs path (""))
  else .error (.sinkCreation path)

/-- `Output::new` of `cli.rs`: a `';'`-delimited csv writer over stdout when
the flag is set, otherwise over a freshly created file at the output path. -/
def Output.new (fs : FileSystem) (stdoutFlag : Bool) (path : String) :
    Except Err (Output × FileSystem) :=
  if stdoutFlag then .ok (.StdOut (freshWriter ';'), fs)
  else
    match fileCreate fs path with
    | .error e => .error e
    | .ok fs' => .ok (.FileOut (freshWriter ';'), fs')

/-- One iteration of the loop in `app()`: build the record for the pair (the
`?` on the currency lookup) and serialize it (the `?` on `serialize`). -/
def step (dev : IoDevice) (ctx : Ctx) (out : Output) (pair : Reward × Price) :
    Except Err Output :=
  match buildRecord ctx pair.1 pair.2 with
  | .error e => .error e
  | .ok rec => Output.serialize dev out rec

/-- The `for` loop of `app()` over the zipped pairs, with the sink state
passed through explicitly: the returned `Output` is what has been written
when the loop finishes or aborts (file writes are side effects that persist
on error). -/
def runLoop (dev : IoDevice) (ctx : Ctx) : List (Reward × Price) → Output → Output × Except Err Unit
  | [], out => (out, .ok ())
  | p :: rest, out =>
    match step dev ctx out p with
    | .error e => (out, .error e)
    | .ok out' => runLoop dev ctx rest out'

/-- The reconciliation pipeline of `app()` (lines 132–146):
`rewards.iter().zip(prices.iter())` driven through the row loop. -/
def runPipeline (dev : IoDevice) (ctx : Ctx) (rewards : List Reward) (prices : List Price)
    (out : Output) : Output × Except Err Unit :=
  runLoop dev ctx (rewards.zip prices) out

/-- Everything before the last `'.'` of a character list, with what follows:
`some (stem, ext)` when a dot exists, `none` otherwise. -/
def splitAtLastDot : List Char → Option (List Char × List Char)
  | [] => none
  | c :: cs =>
    match splitAtLastDot cs with
    | some (pre, post) => some (c :: pre, post)
    | none => if c = '.' then some ([], cs) else none

/-- Modelled from the spec: Rust's `Path::set_extension` on a single-component
file name — replaces everything after the last `'.'` (a leading dot alone
marks a hidden file with no extension, and a dotless name gains one). -/
def rustSetExtension (name ext : String) : String :=
  match splitAtLastDot name.toList with
  | some (pre, _) =>
    if pre = [] then name ++ "." ++ ext else String.mk pre ++ "." ++ ext
  | none => name ++ "." ++ ext

/-- The `App` configuration of `cli.rs`, restricted to the fields the core
pipeline reads (`from`/`to` are Lean keywords, hence the primes). -/
structure App where
  from' : Date
  to' : Date
  network : Network
  currency : String
  address : String
  date_format : String
  folder : String
  stdout : Bool

/-- `construct_file_name` of `cli.rs`. -/
def construct_file_name (app : App) : String :=
  app.network.id ++ "-" ++ app.address ++ "-" ++ formatDate OUTPUT_DATE app.from' ++ "-" ++
    formatDate OUTPUT_DATE app.to' ++ "-rewards"

/-- The final file name `app()` produces (lines 126–128): the constructed
name with extension set to `csv`; `folder.push`/`set_extension` act on the
last path component, which is this name when the address holds no path
separator. -/
def outputFileName (app : App) : String :=
  rustSetExtension (construct_file_name app) ("csv")

/-- The full output path, with `PathBuf::push` modelled as `/`-joining. -/
def outputPath (app : App) : String :=
  app.folder ++ "/" ++ outputFileName app

/-- The loop configuration `app()` reads from the parsed arguments. -/
def ctxOf (app : App) : Ctx :=
  { network := app.network, currency := app.currency, date_format := app.date_format }

/-- On success of a file-backed run, the produced text is in the file at the
output path; a stdout-backed run leaves the file system unchanged. -/
def commit (fs : FileSystem) (path : String) : Output → FileSystem
  | .FileOut w => setFile fs path (String.join (renderedLines w))
  | .StdOut _ => fs

/-- The core of `app()` after the fetches: create the sink, run the row
loop, and fail on the first error from either stage. -/
def appRun (fs : FileSystem) (dev : IoDevice) (app : App) (rewards : List Reward)
    (prices : List Price) : Except Err (Output × FileSystem) :=
  match Output.new fs app.stdout (outputPath app) with
  | .error e => .error e
  | .ok (out, fs1) =>
    match runPipeline dev (ctxOf app) rewards prices out with
    | (out', .ok _) => .ok (out', commit fs1 (outputPath app) out')
    | (_, .error e) => .error e

/-- Spec-side definition (from the spec's words, for comparison): a date
formatted as `YYYY-MM-DD`. -/
def dateYMD (d : Date) : String :=
  zeroPad 4 d.year ++ "-" ++ zeroPad 2 d.month ++ "-" ++ zeroPad 2 d.day

/-- A device on which every write succeeds (used by concrete witnesses). -/
def wDev : IoDevice := ⟨fun _ => false⟩

/-- Concrete start date used by witnesses. -/
def wDate1 : Date := ⟨2021, 6, 1⟩

/-- Concrete end date used by witnesses. -/
def wDate2 : Date := ⟨2021, 7, 1⟩

/-- Concrete reward used by witnesses (the spec's §8 scenario). -/
def wReward1 : Reward := ⟨100, wDate1, 50000000000⟩

/-- A second concrete reward used by witnesses. -/
def wReward2 : Reward := ⟨101, ⟨2021, 6, 2⟩, 20000000000⟩

/-- A snapshot quoting only USD, used by witnesses. -/
def wPriceUSD : Price := ⟨⟨[(("USD"), 1523 / 100)]⟩⟩

/-- A snapshot quoting only EUR, used by witnesses. -/
def wPriceEUR : Price := ⟨⟨[(("EUR"), 125 / 10)]⟩⟩

/-- Concrete loop configuration used by witnesses. -/
def wCtx : Ctx := ⟨.Polkadot, ("USD"), OUTPUT_DATE⟩

/-- Concrete parsed-argument configuration used by witnesses. -/
def wApp : App :=
  { from' := wDate1, to' := wDate2, network := .Polkadot, currency := ("USD")
    address := ("addr1"), date_format := OUTPUT_DATE, folder := ("/tmp"), stdout := false }

/-- A file system on which every path is creatable, used by witnesses. -/
def wFsOk : FileSystem := ⟨fun _ => true, fun _ => false, fun _ => none⟩

/-- A file system on which no parent directory exists, used by witnesses. -/
def wFsBad : FileSystem := ⟨fun _ => false, fun _ => false, fun _ => none⟩

/-- The record the pipeline builds for `wReward1` against `wPriceUSD`. -/
def wRecord : CsvRecord := recordOf wCtx wReward1 wPriceUSD

/-- The sink state after the first row of the C4 witness run. -/
def wMidOutput : Output := .FileOut ⟨';', true, [wRecord], 1⟩

theorem Output.writer_withWriter (out : Output) (w : CsvWriter) : (out.withWriter w).writer = w := by
  cases out <;> rfl

theorem Output.serialize_ok (dev : IoDevice) (out : Output) (rec : CsvRecord)
    (h : dev.failAt out.writer.calls = false) :
    Output.serialize dev out rec =
      .ok (out.withWriter
        { out.writer with
            headerWritten := true
            rows := out.writer.rows ++ [rec]
            calls := out.writer.calls + 1 }) := by
  cases out <;> simp [Output.serialize, Output.writer, Output.withWriter, csvSerialize] <;>
    simp [Output.writer] at h <;> simp [h, Except.map]

theorem lookupPrice_eq_some_of_mem (m : List (String × ℚ)) (c : String) (v : ℚ)
    (hnd : (priceKeys m).Nodup) (hmem : (c, v) ∈ m) : lookupPrice m c = some v := by
  induction m with
  | nil => cases hmem
  | cons kv rest ih =>
    obtain ⟨k, w⟩ := kv
    simp only [priceKeys, List.map_cons, List.nodup_cons] at hnd
    rcases List.mem_cons.mp hmem with h | h
    · cases h
      simp [lookupPrice]
    · have hkc : k ≠ c := by
        intro hk
        subst hk
        exact hnd.1 (List.mem_map.mpr ⟨(k, v), h, rfl⟩)
      simp only [lookupPrice, if_neg hkc]
      exact ih hnd.2 h

theorem lookupPrice_eq_none (m : List (String × ℚ)) (c : String)
    (habs : c ∉ priceKeys m) : lookupPrice m c = none := by
  induction m with
  | nil => rfl
  | cons kv rest ih =>
    obtain ⟨k, w⟩ := kv
    simp only [priceKeys, List.map_cons, List.mem_cons, not_or] at habs
    simp only [lookupPrice, if_neg (fun (h : k = c) => habs.1 h.symm)]
    exact ih habs.2

theorem buildRecord_ok (ctx : Ctx) (r : Reward) (p : Price)
    (h : (lookupPrice p.market_data.current_price ctx.currency).isSome) :
    buildRecord ctx r p = .ok (recordOf ctx r p) := by
  obtain ⟨v, hv⟩ := Option.isSome_iff_exists.mp h
  simp [buildRecord, resolvePrice, recordOf, hv]

theorem runLoop_all_ok (dev : IoDevice) (ctx : Ctx) (hdev : ∀ k, dev.failAt k = false)
    (l : List (Reward × Price)) :
    ∀ out : Output,
      (∀ pr ∈ l, (lookupPrice pr.2.market_data.current_price ctx.currency).isSome) →
      (runLoop dev ctx l out).2 = .ok () ∧
        (runLoop dev ctx l out).1.writer.rows =
          out.writer.rows ++ l.map (fun pr => recordOf ctx pr.1 pr.2) := by
  induction l with
  | nil => intro out _; simp [runLoop]
  | cons p rest ih =>
    intro out hcur
    have hp := hcur p (List.mem_cons_self p rest)
    have hrest : ∀ pr ∈ rest, (lookupPrice pr.2.market_data.current_price ctx.currency).isSome :=
      fun pr hpr => hcur pr (List.mem_cons_of_mem p hpr)
    have hstep : step dev ctx out p =
        .ok (out.withWriter
          { out.writer with
              headerWritten := true
              rows := out.writer.rows ++ [recordOf ctx p.1 p.2]
              calls := out.writer.calls + 1 }) := by
      simp [step, buildRecord_ok ctx p.1 p.2 hp, Output.serialize_ok dev out _ (hdev _)]
    obtain ⟨ih1, ih2⟩ :=
      ih (out.withWriter
        { out.writer with
            headerWritten := true
            rows := out.writer.rows ++ [recordOf ctx p.1 p.2]
            calls := out.writer.calls + 1 }) hrest
    simp only [runLoop, hstep]
    refine ⟨ih1, ?_⟩
    rw [ih2, Output.writer_withWriter]
    simp

theorem runLoop_prefix_append (dev : IoDevice) (ctx : Ctx) (l₁ l₂ : List (Reward × Price)) :
    ∀ out s : Output, runLoop dev ctx l₁ out = (s, .ok ()) →
      runLoop dev ctx (l₁ ++ l₂) out = runLoop dev ctx l₂ s := by
  induction l₁ with
  | nil =>
    intro out s h
    simp only [runLoop] at h
    cases h
    simp
  | cons p rest ih =>
    intro out s h
    simp only [runLoop, List.cons_append] at h ⊢
    cases hstep : step dev ctx out p with
    | error e => rw [hstep] at h; cases h
    | ok out' => rw [hstep] at h; exact ih out' s h

theorem step_ok_rows (dev : IoDevice) (ctx : Ctx) (out out' : Output) (p : Reward × Price)
    (h : step dev ctx out p = .ok out') :
    ∃ rec, out'.writer.rows = out.writer.rows ++ [rec] := by
  unfold step at h
  cases hb : buildRecord ctx p.1 p.2 with
  | error e => rw [hb] at h; cases h
  | ok rec =>
    rw [hb] at h
    refine ⟨rec, ?_⟩
    cases out <;> simp only [Output.serialize, csvSerialize] at h <;> split at h <;>
      cases h <;> simp [Output.writer]

theorem runLoop_ok_row_count (dev : IoDevice) (ctx : Ctx) (l : List (Reward × Price)) :
    ∀ out s : Output, runLoop dev ctx l out = (s, .ok ()) →
      s.writer.rows.length = out.writer.rows.length + l.length := by
  induction l with
  | nil =>
    intro out s h
    simp only [runLoop] at h
    cases h
    simp
  | cons p rest ih =>
    intro out s h
    simp only [runLoop] at h
    cases hstep : step dev ctx out p with
    | error e => rw [hstep] at h; cases h
    | ok out' =>
      rw [hstep] at h
      obtain ⟨rec, hrec⟩ := step_ok_rows dev ctx out out' p hstep
      have := ih out' s h
      rw [this, hrec]
      simp
      omega

theorem Output.withWriter_withWriter (out : Output) (w₁ w₂ : CsvWriter) :
    (out.withWriter w₁).withWriter w₂ = out.withWriter w₂ := by
  cases out <;> rfl

theorem serializeAll_ok (dev : IoDevice) (hdev : ∀ k, dev.failAt k = false)
    (recs : List CsvRecord) :
    ∀ out : Output,
      serializeAll dev out recs =
        .ok (out.withWriter
          { delim := out.writer.delim
            headerWritten := out.writer.headerWritten || !recs.isEmpty
            rows := out.writer.rows ++ recs
            calls := out.writer.calls + recs.length }) := by
  induction recs with
  | nil =>
    intro out
    cases out <;> simp [serializeAll, Output.withWriter, Output.writer]
  | cons r rest ih =>
    intro out
    simp only [serializeAll, Output.serialize_ok dev out r (hdev _)]
    rw [ih, Output.withWriter_withWriter, Output.writer_withWriter]
    simp only [List.isEmpty_cons, Bool.true_or, Bool.not_false, Bool.or_true, List.append_assoc,
      List.singleton_append, List.length_cons]
    have hcalls : out.writer.calls + 1 + rest.length = out.writer.calls + (rest.length + 1) := by
      omega
    rw [hcalls]

theorem digChar_isDigit (k : Nat) (h : k < 10) : (digChar k).isDigit = true := by
  interval_cases k <;> decide

theorem natCharsAux_digits (fuel : Nat) :
    ∀ (n : Nat) (acc : List Char), (∀ c ∈ acc, c.isDigit = true) →
      ∀ c ∈ natCharsAux fuel n acc, c.isDigit = true := by
  induction fuel with
  | zero => intro n acc hacc c hc; exact hacc c hc
  | succ fuel ih =>
    intro n acc hacc c hc
    simp only [natCharsAux] at hc
    split at hc
    · next h =>
      rcases List.mem_cons.mp hc with h1 | h1
      · subst h1; exact digChar_isDigit n h
      · exact hacc c h1
    · next h =>
      refine ih (n / 10) (digChar (n % 10) :: acc) ?_ c hc
      intro c2 hc2
      rcases List.mem_cons.mp hc2 with h1 | h1
      · subst h1; exact digChar_isDigit (n % 10) (Nat.mod_lt n (by omega))
      · exact hacc c2 h1

theorem natChars_digits (n : Nat) : ∀ c ∈ natChars n, c.isDigit = true :=
  natCharsAux_digits (n + 1) n [] (by simp)

theorem no_dot_natChars (n : Nat) : ('.') ∉ natChars n := by
  intro h
  exact absurd (natChars_digits n _ h) (by decide)

theorem no_dot_zeroPad (w n : Nat) : ('.') ∉ (zeroPad w n).toList := by
  intro h
  replace h : ('.') ∈ List.replicate (w - (natChars n).length) '0' ++ natChars n := h
  rcases List.mem_append.mp h with h1 | h1
  · exact absurd (List.eq_of_mem_replicate h1) (by decide)
  · exact no_dot_natChars n h1

theorem data_singleton (c : Char) : (String.singleton c).data = [c] := rfl

theorem formatDate_OUTPUT_DATE (d : Date) : formatDate OUTPUT_DATE d = dateYMD d := by
  have h1 : formatDate OUTPUT_DATE d =
      zeroPad 4 d.year ++ (String.singleton '-' ++ (zeroPad 2 d.month ++
        (String.singleton '-' ++ (zeroPad 2 d.day ++ "")))) := rfl
  rw [h1]
  apply String.ext
  simp [dateYMD, String.data_append, data_singleton]

theorem no_dot_dateYMD (d : Date) : ('.') ∉ (dateYMD d).toList := by
  intro h
  replace h : ('.') ∈ (zeroPad 4 d.year ++ "-" ++ zeroPad 2 d.month ++ "-" ++
    zeroPad 2 d.day).data := h
  simp only [String.data_append] at h
  have hdash : ('.') ∉ ("-").data := by decide
  rcases List.mem_append.mp h with h1 | h1
  · rcases List.mem_append.mp h1 with h2 | h2
    · rcases List.mem_append.mp h2 with h3 | h3
      · rcases List.mem_append.mp h3 with h4 | h4
        · exact no_dot_zeroPad 4 d.year h4
        · exact hdash h4
      · exact no_dot_zeroPad 2 d.month h3
    · exact hdash h2
  · exact no_dot_zeroPad 2 d.day h1

theorem splitAtLastDot_eq_none (cs : List Char) (h : ('.') ∉ cs) : splitAtLastDot cs = none := by
  induction cs with
  | nil => rfl
  | cons c rest ih =>
    simp only [List.mem_cons, not_or] at h
    have hc : c ≠ ('.') := fun hh => h.1 hh.symm
    simp [splitAtLastDot, ih h.2, hc]

theorem splitAtLastDot_append (l₁ l₂ : List Char) (h : ('.') ∉ l₁) :
    splitAtLastDot (l₁ ++ l₂) =
      (splitAtLastDot l₂).map (fun pq => (l₁ ++ pq.1, pq.2)) := by
  induction l₁ with
  | nil => cases h2 : splitAtLastDot l₂ <;> simp [h2]
  | cons c rest ih =>
    simp only [List.mem_cons, not_or] at h
    have hc : c ≠ ('.') := fun hh => h.1 hh.symm
    simp only [List.cons_append, splitAtLastDot, List.append_eq]
    rw [ih h.2]
    cases h2 : splitAtLastDot l₂ with
    | none => simp [hc]
    | some pq => simp

theorem toList_eq_data (s : String) : s.toList = s.data := rfl

theorem data_mk (l : List Char) : (String.mk l).data = l := rfl

theorem no_dot_network_id (n : Network) : ('.') ∉ (Network.id n).data := by
  cases n <;> decide

/-- C3: for every network variant and every raw amount up to 128 bits, the
unit conversion returns exactly the raw amount divided by the network's
divisor — `10 ^ 10` for Polkadot and `10 ^ 12` for Kusama — and the
conversion is a total function (no error path). -/
theorem amount_to_network_exact_div (network : Network) (amount : Nat)
    (_h : amount < 2 ^ 128) :
    amount_to_network network amount = (amount : ℚ) / specDivisor network ∧
      specDivisor Network.Polkadot = 10 ^ 10 ∧ specDivisor Network.Kusama = 10 ^ 12 := by
  refine ⟨?_, rfl, rfl⟩
  cases network <;> simp [amount_to_network, specDivisor] <;> norm_num

/-- Witness for C3 at the spec's §8 scenario amount. -/
theorem amount_to_network_exact_div_witness :
    (50000000000 < 2 ^ 128) ∧
      (amount_to_network Network.Polkadot 50000000000 =
          (50000000000 : ℚ) / specDivisor Network.Polkadot ∧
        specDivisor Network.Polkadot = 10 ^ 10 ∧ specDivisor Network.Kusama = 10 ^ 12) :=
  ⟨by norm_num, amount_to_network_exact_div Network.Polkadot 50000000000 (by norm_num)⟩

/-- C2: currency resolution returns the stored value whenever the snapshot's
mapping holds the requested code (exact, case-sensitive key match), and for
an absent code fails with a `CurrencyNotSupported` error carrying the
requested code together with the full set of codes available in that
snapshot — both spelled out in its message. -/
theorem resolvePrice_found_and_missing (m : List (String × ℚ)) (c cAbs : String) (v : ℚ)
    (hnd : (priceKeys m).Nodup) (hmem : (c, v) ∈ m) (habs : cAbs ∉ priceKeys m) :
    resolvePrice m c = .ok v ∧
      resolvePrice m cAbs = .error (.currencyNotSupported cAbs (priceKeys m)) ∧
      Err.message (.currencyNotSupported cAbs (priceKeys m)) =
        "Specified fiat currency '" ++ cAbs ++ "' not supported: " ++ toString (priceKeys m) := by
  refine ⟨?_, ?_, rfl⟩
  · simp [resolvePrice, lookupPrice_eq_some_of_mem m c v hnd hmem]
  · simp [resolvePrice, lookupPrice_eq_none m cAbs habs]

/-- Witness for C2: a USD-only snapshot resolves USD and rejects JPY. -/
theorem resolvePrice_found_and_missing_witness :
    ((priceKeys wPriceUSD.market_data.current_price).Nodup ∧
      (("USD"), (1523 / 100 : ℚ)) ∈ wPriceUSD.market_data.current_price ∧
      ("JPY") ∉ priceKeys wPriceUSD.market_data.current_price) ∧
      (resolvePrice wPriceUSD.market_data.current_price ("USD") = .ok (1523 / 100) ∧
        resolvePrice wPriceUSD.market_data.current_price ("JPY") =
          .error (.currencyNotSupported ("JPY") (priceKeys wPriceUSD.market_data.current_price)) ∧
        Err.message (.currencyNotSupported ("JPY") (priceKeys wPriceUSD.market_data.current_price)) =
          "Specified fiat currency '" ++ ("JPY") ++ "' not supported: " ++
            toString (priceKeys wPriceUSD.market_data.current_price)) :=
  ⟨⟨by decide, by exact List.mem_singleton.mpr rfl, by decide⟩,
    resolvePrice_found_and_missing wPriceUSD.market_data.current_price ("USD") ("JPY")
      (1523 / 100) (by decide) (by exact List.mem_singleton.mpr rfl) (by decide)⟩

/-- C6: on empty reward and price sequences the pipeline succeeds — the loop
returns `Ok` with the sink state untouched — and the fresh sink holds zero
data rows: emptiness is not an error. -/
theorem runPipeline_empty_ok (dev : IoDevice) (ctx : Ctx) (b : Bool) :
    runPipeline dev ctx [] [] (Output.fresh b) = (Output.fresh b, .ok ()) ∧
      (Output.fresh b).writer.rows = [] :=
  ⟨rfl, by cases b <;> rfl⟩

/-- C1: with a healthy sink and the currency present in every snapshot, the
pipeline iterates the two sequences pairwise in index order and writes
exactly `min (len rewards) (len prices)` rows, row `i` carrying
`rewards[i].block_num`, in the original reward order with no reordering. -/
theorem run_rows_min_and_block_num (dev : IoDevice) (ctx : Ctx) (rewards : List Reward)
    (prices : List Price) (b : Bool)
    (hdev : ∀ k, dev.failAt k = false)
    (hcur : ∀ p ∈ prices, (lookupPrice p.market_data.current_price ctx.currency).isSome = true) :
    (runPipeline dev ctx rewards prices (Output.fresh b)).2 = .ok () ∧
      (runPipeline dev ctx rewards prices (Output.fresh b)).1.writer.rows =
        (rewards.zip prices).map (fun pr => recordOf ctx pr.1 pr.2) ∧
      (runPipeline dev ctx rewards prices (Output.fresh b)).1.writer.rows.length =
        min rewards.length prices.length ∧
      ∀ (i : Nat)
        (h1 : i < (runPipeline dev ctx rewards prices (Output.fresh b)).1.writer.rows.length)
        (h2 : i < rewards.length),
        ((runPipeline dev ctx rewards prices (Output.fresh b)).1.writer.rows[i]).block_num =
          (rewards[i]).block_num := by
  have hcur' : ∀ pr ∈ rewards.zip prices,
      (lookupPrice pr.2.market_data.current_price ctx.currency).isSome = true := by
    intro pr hpr
    exact hcur pr.2 (List.of_mem_zip hpr).2
  obtain ⟨hok, hrows⟩ := runLoop_all_ok dev ctx hdev (rewards.zip prices) (Output.fresh b) hcur'
  have hrows0 : (Output.fresh b).writer.rows = [] := by cases b <;> rfl
  rw [hrows0, List.nil_append] at hrows
  refine ⟨hok, hrows, ?_, ?_⟩
  · rw [show (runPipeline dev ctx rewards prices (Output.fresh b)).1.writer.rows =
      (rewards.zip prices).map (fun pr => recordOf ctx pr.1 pr.2) from hrows]
    simp [List.length_zip, inf_eq_min]
  · intro i h1 h2
    simp only [show (runPipeline dev ctx rewards prices (Output.fresh b)).1.writer.rows =
      (rewards.zip prices).map (fun pr => recordOf ctx pr.1 pr.2) from hrows] at h1 ⊢
    simp only [List.getElem_map, List.getElem_zip]
    rfl

/-- Witness for C1: one reward and one snapshot produce one row. -/
theorem run_rows_min_and_block_num_witness :
    (∀ k, wDev.failAt k = false) ∧
      (∀ p ∈ [wPriceUSD], (lookupPrice p.market_data.current_price wCtx.currency).isSome = true) ∧
      ((runPipeline wDev wCtx [wReward1] [wPriceUSD] (Output.fresh true)).2 = .ok () ∧
        (runPipeline wDev wCtx [wReward1] [wPriceUSD] (Output.fresh true)).1.writer.rows =
          ([wReward1].zip [wPriceUSD]).map (fun pr => recordOf wCtx pr.1 pr.2) ∧
        (runPipeline wDev wCtx [wReward1] [wPriceUSD] (Output.fresh true)).1.writer.rows.length =
          min ([wReward1] : List Reward).length ([wPriceUSD] : List Price).length ∧
        ∀ (i : Nat)
          (h1 : i < (runPipeline wDev wCtx [wReward1] [wPriceUSD]
            (Output.fresh true)).1.writer.rows.length)
          (h2 : i < ([wReward1] : List Reward).length),
          ((runPipeline wDev wCtx [wReward1] [wPriceUSD]
              (Output.fresh true)).1.writer.rows[i]).block_num =
            (([wReward1] : List Reward)[i]).block_num) :=
  ⟨fun _ => rfl, by decide,
    run_rows_min_and_block_num wDev wCtx [wReward1] [wPriceUSD] true (fun _ => rfl) (by decide)⟩

/-- C4: when building or serializing row `i` fails — an unsupported currency
or a sink write failure — the pipeline returns that error immediately: the
sink keeps exactly the `i` previously written rows, and no row at index `i`
or later is written; nothing is locally recovered or skipped. -/
theorem run_aborts_on_first_error (dev : IoDevice) (ctx : Ctx) (rewards : List Reward)
    (prices : List Price) (out s : Output) (i : Nat) (e : Err)
    (hi : i < (rewards.zip prices).length)
    (hpre : runLoop dev ctx ((rewards.zip prices).take i) out = (s, .ok ()))
    (hfail : step dev ctx s ((rewards.zip prices).get ⟨i, hi⟩) = .error e) :
    runPipeline dev ctx rewards prices out = (s, .error e) ∧
      s.writer.rows.length = out.writer.rows.length + i := by
  constructor
  · have happ := runLoop_prefix_append dev ctx ((rewards.zip prices).take i)
      ((rewards.zip prices).drop i) out s hpre
    rw [List.take_append_drop] at happ
    have hdrop : (rewards.zip prices).drop i =
        (rewards.zip prices).get ⟨i, hi⟩ :: (rewards.zip prices).drop (i + 1) := by
      rw [List.drop_eq_getElem_cons hi]
      simp [List.get_eq_getElem]
    simp only [runPipeline, happ, hdrop, runLoop, hfail]
  · have hcount := runLoop_ok_row_count dev ctx ((rewards.zip prices).take i) out s hpre
    have htake : ((rewards.zip prices).take i).length = i := by
      rw [List.length_take]
      exact inf_eq_left.mpr (Nat.le_of_lt hi)
    rw [hcount, htake]

/-- Witness for C4: the second snapshot lacks USD, so the run aborts after
one written row, returning the currency error. -/
theorem run_aborts_on_first_error_witness :
    (1 < ([wReward1, wReward2].zip [wPriceUSD, wPriceEUR]).length) ∧
      (runLoop wDev wCtx (([wReward1, wReward2].zip [wPriceUSD, wPriceEUR]).take 1)
        (Output.fresh false) = (wMidOutput, .ok ())) ∧
      (step wDev wCtx wMidOutput
          (([wReward1, wReward2].zip [wPriceUSD, wPriceEUR]).get ⟨1, by decide⟩) =
        .error (.currencyNotSupported ("USD") [("EUR")])) ∧
      (runPipeline wDev wCtx [wReward1, wReward2] [wPriceUSD, wPriceEUR] (Output.fresh false) =
          (wMidOutput, .error (.currencyNotSupported ("USD") [("EUR")])) ∧
        wMidOutput.writer.rows.length = (Output.fresh false).writer.rows.length + 1) :=
  ⟨by decide, by rfl, by rfl,
    run_aborts_on_first_error wDev wCtx [wReward1, wReward2] [wPriceUSD, wPriceEUR]
      (Output.fresh false) wMidOutput 1 (.currencyNotSupported ("USD") [("EUR")])
      (by decide) (by rfl) (by rfl)⟩

/-- C5: both sink variants perform the identical serialize operation on their
writer; any run of successful serialize calls from a fresh sink emits the
header row `block_num;block_time;amount;price` exactly once, before the first
data row, followed by one delimiter-joined, newline-terminated row per
call. -/
theorem serialize_variants_header_once (dev : IoDevice) (w : CsvWriter) (rec : CsvRecord)
    (b : Bool) (recs : List CsvRecord)
    (hdev : ∀ k, dev.failAt k = false) (hne : recs ≠ []) :
    (Output.serialize dev (.FileOut w) rec).map Output.writer =
        (Output.serialize dev (.StdOut w) rec).map Output.writer ∧
      headerLine ';' = "block_num;block_time;amount;price\n" ∧
      ∃ out' : Output, serializeAll dev (Output.fresh b) recs = .ok out' ∧
        renderedLines out'.writer = headerLine ';' :: recs.map (renderLine ';') := by
  refine ⟨?_, rfl, ?_⟩
  · cases h2 : csvSerialize dev w rec <;>
      simp [Output.serialize, h2, Except.map, Output.writer]
  · refine ⟨_, serializeAll_ok dev hdev recs (Output.fresh b), ?_⟩
    rw [Output.writer_withWriter]
    have hw : (Output.fresh b).writer = freshWriter ';' := by cases b <;> rfl
    rw [hw]
    have hne' : recs.isEmpty = false := by
      cases recs with
      | nil => exact absurd rfl hne
      | cons a l => rfl
    simp [renderedLines, freshWriter, hne']

/-- Witness for C5: a single record serialized through a fresh stdout sink. -/
theorem serialize_variants_header_once_witness :
    (∀ k, wDev.failAt k = false) ∧ ([wRecord] ≠ ([] : List CsvRecord)) ∧
      ((Output.serialize wDev (.FileOut (freshWriter ';')) wRecord).map Output.writer =
          (Output.serialize wDev (.StdOut (freshWriter ';')) wRecord).map Output.writer ∧
        headerLine ';' = "block_num;block_time;amount;price\n" ∧
        ∃ out' : Output, serializeAll wDev (Output.fresh true) [wRecord] = .ok out' ∧
          renderedLines out'.writer = headerLine ';' :: [wRecord].map (renderLine ';')) :=
  ⟨fun _ => rfl, by decide,
    serialize_variants_header_once wDev (freshWriter ';') wRecord true [wRecord]
      (fun _ => rfl) (by decide)⟩

/-- C7: sink creation on stdout can never fail, while file-sink creation
fails with the sink-creation error as soon as the parent directory is missing
or the path is write-protected — and the whole run then surfaces exactly that
error, before any row is produced. -/
theorem output_new_failure_modes (fs : FileSystem) (dev : IoDevice) (app : App)
    (rewards : List Reward) (prices : List Price)
    (hstd : app.stdout = false)
    (hfail : fs.parentExists (outputPath app) = false ∨
      fs.writeProtected (outputPath app) = true) :
    (∀ (fs2 : FileSystem) (p2 : String),
        Output.new fs2 true p2 = .ok (.StdOut (freshWriter ';'), fs2)) ∧
      Output.new fs false (outputPath app) = .error (.sinkCreation (outputPath app)) ∧
      appRun fs dev app rewards prices = .error (.sinkCreation (outputPath app)) := by
  have hnew : Output.new fs false (outputPath app) = .error (.sinkCreation (outputPath app)) := by
    simp only [Output.new, fileCreate]
    rcases hfail with h | h <;> simp [h]
  refine ⟨fun fs2 p2 => rfl, hnew, ?_⟩
  simp only [appRun, hstd, hnew]

/-- Witness for C7: a file system with no parent directories rejects the
file sink and the run aborts with the creation error. -/
theorem output_new_failure_modes_witness :
    (wApp.stdout = false) ∧
      (wFsBad.parentExists (outputPath wApp) = false ∨
        wFsBad.writeProtected (outputPath wApp) = true) ∧
      ((∀ (fs2 : FileSystem) (p2 : String),
          Output.new fs2 true p2 = .ok (.StdOut (freshWriter ';'), fs2)) ∧
        Output.new wFsBad false (outputPath wApp) = .error (.sinkCreation (outputPath wApp)) ∧
        appRun wFsBad wDev wApp [] [] = .error (.sinkCreation (outputPath wApp))) :=
  ⟨rfl, Or.inl rfl, output_new_failure_modes wFsBad wDev wApp [] [] rfl (Or.inl rfl)⟩

/-- C8: the on-disk output file name follows
`{network-id}-{address}-{from-date}-{to-date}-rewards.csv` with both dates
rendered as `YYYY-MM-DD` (stated for addresses free of `'.'`, the
well-formedness `set_extension` needs; network-formatted base58 addresses
contain no dot). -/
theorem output_file_name_pattern (app : App) (hdot : ('.') ∉ app.address.toList) :
    outputFileName app = construct_file_name app ++ ".csv" ∧
      construct_file_name app =
        app.network.id ++ "-" ++ app.address ++ "-" ++ dateYMD app.from' ++ "-" ++
          dateYMD app.to' ++ "-rewards" ∧
      ∀ d : Date, formatDate OUTPUT_DATE d = dateYMD d := by
  refine ⟨?_, ?_, fun d => formatDate_OUTPUT_DATE d⟩
  · have hno : ('.') ∉ (construct_file_name app).toList := by
      intro hmem
      replace hmem : ('.') ∈ (construct_file_name app).data := hmem
      simp only [construct_file_name, String.data_append, List.mem_append] at hmem
      rcases hmem with (((((((h | h) | h) | h) | h) | h) | h) | h)
      · exact no_dot_network_id app.network h
      · exact absurd h (by decide)
      · exact hdot h
      · exact absurd h (by decide)
      · rw [formatDate_OUTPUT_DATE] at h
        exact no_dot_dateYMD app.from' h
      · exact absurd h (by decide)
      · rw [formatDate_OUTPUT_DATE] at h
        exact no_dot_dateYMD app.to' h
      · exact absurd h (by decide)
    have hsplit := splitAtLastDot_eq_none _ hno
    simp only [outputFileName, rustSetExtension, hsplit]
    apply String.ext
    simp only [String.data_append, List.append_assoc]
    congr 1
  · simp [construct_file_name, formatDate_OUTPUT_DATE]

/-- Witness for C8 at a dot-free address. -/
theorem output_file_name_pattern_witness :
    (('.') ∉ wApp.address.toList) ∧
      (outputFileName wApp = construct_file_name wApp ++ ".csv" ∧
        construct_file_name wApp =
          wApp.network.id ++ "-" ++ wApp.address ++ "-" ++ dateYMD wApp.from' ++ "-" ++
            dateYMD wApp.to' ++ "-rewards" ∧
        ∀ d : Date, formatDate OUTPUT_DATE d = dateYMD d) :=
  ⟨by decide, output_file_name_pattern wApp (by decide)⟩

/-- C9: the network identifier used in output file naming is the literal
string `"polkdadot"` for Polkadot (the source's misspelling of "polkadot")
and `"kusama"` for Kusama, so every Polkadot output file name begins with
`polkdadot-`. -/
theorem network_id_misspelling :
    Network.id Network.Polkadot = "polkdadot" ∧ Network.id Network.Kusama = "kusama" ∧
      ∀ app : App, app.network = Network.Polkadot →
        ("polkdadot-").toList <+: (outputFileName app).toList := by
  refine ⟨rfl, rfl, ?_⟩
  intro app hnet
  have hpd : ("polkdadot-").data = ("polkdadot").data ++ ("-").data := by decide
  have hdata : (construct_file_name app).data =
      ("polkdadot-").data ++
        (app.address.data ++ (("-").data ++ ((formatDate OUTPUT_DATE app.from').data ++
          (("-").data ++ ((formatDate OUTPUT_DATE app.to').data ++ ("-rewards").data))))) := by
    simp only [construct_file_name, hnet, Network.id, String.data_append, List.append_assoc,
      hpd, List.cons_append, List.nil_append]
  obtain ⟨tl, htl⟩ : ∃ tl, (construct_file_name app).toList = ("polkdadot-").data ++ tl :=
    ⟨_, hdata⟩
  simp only [outputFileName, rustSetExtension, htl,
    splitAtLastDot_append (("polkdadot-").data) tl (by decide)]
  cases h2 : splitAtLastDot tl with
  | none =>
    simp only [h2, Option.map_none']
    refine ⟨tl ++ ((".").data ++ ("csv").data), ?_⟩
    have htl' : (construct_file_name app).data = ("polkdadot-").data ++ tl := htl
    simp only [toList_eq_data, String.data_append, htl', List.append_assoc]
  | some pq =>
    obtain ⟨pre, post⟩ := pq
    simp only [h2, Option.map_some']
    have hne2 : ("polkdadot-").data ++ pre ≠ [] := by
      intro hh
      exact absurd (List.append_eq_nil.mp hh).1 (by decide)
    rw [if_neg hne2]
    refine ⟨pre ++ ((".").data ++ ("csv").data), ?_⟩
    simp only [toList_eq_data, String.data_append, data_mk, List.append_assoc]

/-- Witness for C9 at the concrete Polkadot configuration. -/
theorem network_id_misspelling_witness :
    (wApp.network = Network.Polkadot) ∧
      ("polkdadot-").toList <+: (outputFileName wApp).toList :=
  ⟨rfl, network_id_misspelling.2.2 wApp rfl⟩

/-- C10: with an empty reward sequence serialize is never invoked, so the
output holds no header row at all — the header is lazily written by the
first serialize call — while in file mode the (empty) output file has still
been created. -/
theorem empty_rewards_no_header (fs : FileSystem) (dev : IoDevice) (app : App)
    (prices : List Price)
    (hstd : app.stdout = false)
    (hpar : fs.parentExists (outputPath app) = true)
    (hprot : fs.writeProtected (outputPath app) = false) :
    appRun fs dev app [] prices =
        .ok (.FileOut (freshWriter ';'),
          setFile (setFile fs (outputPath app) ("")) (outputPath app) ("")) ∧
      (setFile (setFile fs (outputPath app) ("")) (outputPath app) ("")).files
          (outputPath app) = some ("") ∧
      (freshWriter ';').headerWritten = false ∧
      renderedLines (freshWriter ';') = [] := by
  have h1 : fileCreate fs (outputPath app) = .ok (setFile fs (outputPath app) ("")) := by
    simp [fileCreate, hpar, hprot]
  refine ⟨?_, by simp [setFile], rfl, rfl⟩
  simp only [appRun, hstd, Output.new, h1]
  rfl

/-- Witness for C10: a writable file system, a file-mode configuration, and a
nonempty price list still yield an empty, header-free file. -/
theorem empty_rewards_no_header_witness :
    (wApp.stdout = false) ∧ (wFsOk.parentExists (outputPath wApp) = true) ∧
      (wFsOk.writeProtected (outputPath wApp) = false) ∧
      (appRun wFsOk wDev wApp [] [wPriceUSD] =
          .ok (.FileOut (freshWriter ';'),
            setFile (setFile wFsOk (outputPath wApp) ("")) (outputPath wApp) ("")) ∧
        (setFile (setFile wFsOk (outputPath wApp) ("")) (outputPath wApp) ("")).files
            (outputPath wApp) = some ("") ∧
        (freshWriter ';').headerWritten = false ∧
        renderedLines (freshWriter ';') = []) :=
  ⟨rfl, rfl, rfl, empty_rewards_no_header wFsOk wDev wApp [wPriceUSD] rfl rfl rfl⟩
